import Mathlib

/-
Shallow embedding of the scroll-tech go-ethereum L2 consensus API
(eth/catalyst/l2_api.go): the block coordinator that assembles,
validates and commits L2 blocks, with its verified-result cache.

External collaborators (miner, consensus engine, executor, chain store,
transaction codec, bloom codec, header hashing) are not part of this
file; they are abstracted as function fields of an `Env`
record.  Machine words (uint64 block numbers, hashes, addresses) are
modelled as `Nat`; byte strings as `List Nat`; errors as `String`.
`ChainState` carries the canonical head, the `verified` cache of the
API object, and ghost counters recording how often each external call
site (VerifyBlock, ValidateBody, ProcessBlock, WriteStateAndSetHead)
fires; the counters never influence control flow.
-/

namespace Catalyst

/-- Content hashes (common.Hash), modelled as naturals. -/
abbrev Hash := Nat

/-- Account addresses (common.Address), modelled as naturals. -/
abbrev Address := Nat

/-- Opaque byte strings ([]byte), modelled as lists of naturals. -/
abbrev Bytes := List Nat

/-- A decoded transaction (types.Transaction), abstract. -/
abbrev Tx := Nat

/-- A state snapshot handle (state.StateDB), abstract. -/
abbrev StateDB := Nat

/-- A receipt sequence (types.Receipts), abstract. -/
abbrev Receipts := Nat

/-- Aggregate BLS signature data (types.BLSData), abstract; 0 is the zero value. -/
abbrev BLSData := Nat

/-- A log bloom (types.Bloom), abstract. -/
abbrev Bloom := Nat

/-- Go `error` values, modelled by their message string. -/
abbrev Err := String

/-- Block header (types.Header), restricted to the fields this core reads or
writes.  `difficulty` stands for the engine-filled fields that
`Engine().Prepare` may set; Go zero values are 0 / []. -/
structure Header where
  parentHash : Hash
  number : Nat
  gasUsed : Nat
  gasLimit : Nat
  time : Nat
  coinbase : Address
  extra : Bytes
  blsData : BLSData
  baseFee : Nat
  difficulty : Nat
  txHash : Hash
  receiptHash : Hash
  root : Hash
  bloom : Bloom
deriving DecidableEq, Repr

/-- A full block (types.Block): header plus transaction body.
`NewBlockWithHeader(h).WithBody(txs, nil)` is `⟨h, txs⟩`. -/
structure Block where
  header : Header
  txs : List Tx
deriving DecidableEq, Repr

/-- Stored execution result of the next block to be committed
(struct executionResult in l2_api.go). -/
structure executionResult where
  block : Block
  state : StateDB
  receipts : Receipts
  procTime : Nat
deriving DecidableEq, Repr

/-- Wire-level candidate block descriptor (ExecutableL2Data).  The Go struct
has an Extra field even though the composite literal in AssembleL2Block leaves it
at its zero value. -/
structure ExecutableL2Data where
  parentHash : Hash
  number : Nat
  miner : Address
  timestamp : Nat
  gasLimit : Nat
  baseFee : Nat
  extra : Bytes
  transactions : List Bytes
  stateRoot : Hash
  gasUsed : Nat
  receiptRoot : Hash
  logsBloom : Bytes
deriving DecidableEq, Repr

/-- Input of AssembleL2Block (AssembleL2BlockParams). -/
structure AssembleL2BlockParams where
  number : Nat
  transactions : List Bytes
deriving DecidableEq, Repr

/-- Boolean-carrying RPC response (GenericResponse). -/
structure GenericResponse where
  success : Bool
deriving DecidableEq, Repr

/-- The external collaborators consumed by the coordinator, as abstract
functions.  Wall-clock measurement (`time.Since`) is abstracted by the
constant `elapsed`; `getSealing` abstracts
`Miner().GetSealingBlockAndState(parentHash, now, txs)` with the
nondeterministic timestamp dropped; `writeResult` gives the outcome of
`WriteStateAndSetHead(block, receipts, state, procTime)` (`none` =
success); `prepare` is the in-place header mutation of
`Engine().Prepare`, whose returned error the Go code discards. -/
structure Env where
  hashHeader : Header → Hash
  deriveSha : List Tx → Hash
  emptyRootHash : Hash
  decodeTx : Bytes → Except Err Tx
  encodeTx : Tx → Bytes
  prepare : Header → Header
  verifyHeader : Header → Option Err
  isValidTxCount : Nat → Bool
  validateBody : Block → Option Err
  getSealing : Hash → List Tx → Except Err (Block × StateDB × Receipts)
  processBlock : Block → Header → Except Err (StateDB × Receipts × Nat)
  writeResult : Block → Receipts → StateDB → Nat → Option Err
  bytesToBloom : Bytes → Bloom
  bloomBytes : Bloom → Bytes
  elapsed : Nat

/-- Coordinator state: canonical chain head, the api.verified map
(as an association list, newest binding first; `make(map...)` is `[]`),
and ghost invocation counters for the four external call sites. -/
structure ChainState where
  head : Block
  verified : List (Hash × executionResult)
  verifyCalls : Nat := 0
  bodyCalls : Nat := 0
  procCalls : Nat := 0
  writeCalls : Nat := 0
deriving DecidableEq, Repr

/-- Go map read `api.verified[h]`: first binding for the key, if any. -/
def cacheLookup : List (Hash × executionResult) → Hash → Option executionResult
  | [], _ => none
  | p :: rest, k => if p.1 = k then some p.2 else cacheLookup rest k

/-- Go map write `api.verified[h] = r`: prepend a binding (shadows older ones). -/
def cacheInsert (c : List (Hash × executionResult)) (k : Hash) (v : executionResult) :
    List (Hash × executionResult) :=
  (k, v) :: c

/-- Error for a discontinuous block number (same format string in all three
entry points): names the actual then the expected number. -/
def discontinuityMsg (actual expected : Nat) : String :=
  "cannot assemble block with discontinuous block number " ++ toString actual ++
    ", expected number is " ++ toString expected

/-- Error for a parent-hash mismatch: names the actual then the expected hash. -/
def parentMismatchMsg (actual expected : Hash) : String :=
  "wrong parent hash: " ++ toString actual ++ ", expected parent hash is " ++
    toString expected

/-- Error for the transaction at index `i` failing to decode. -/
def txDecodeMsg (i : Nat) (e : Err) : String :=
  "transaction " ++ toString i ++ " is not valid: " ++ e

/-- The indexed decode loop of AssembleL2Block (lines 64-71): decode each
envelope with `tx.UnmarshalBinary`, failing with the index of the first
undecodable transaction. -/
def decodeTxsLoop (env : Env) : Nat → List Bytes → Except Err (List Tx)
  | _, [] => Except.ok []
  | i, b :: rest =>
    match env.decodeTx b with
    | Except.error e => Except.error (txDecodeMsg i e)
    | Except.ok tx =>
      match decodeTxsLoop env (i + 1) rest with
      | Except.error e => Except.error e
      | Except.ok txs => Except.ok (tx :: txs)

/-- Modelled from the spec: the package helper `decodeTransactions` used by
`paramsToBlock` is not under src/; per the spec each transaction is decoded
from its standard binary envelope and a decode failure at index i reports
that index, i.e. the same indexed loop as AssembleL2Block. -/
def decodeTransactions (env : Env) (l : List Bytes) : Except Err (List Tx) :=
  decodeTxsLoop env 0 l

/-- Modelled from the spec: the package helper `encodeTransactions` used by
`AssembleL2Block` is not under src/; it encodes each transaction into its
standard binary envelope. -/
def encodeTransactions (env : Env) (txs : List Tx) : List Bytes :=
  txs.map env.encodeTx

/-- The descriptor literal AssembleL2Block returns (lines 89-102).  The Go
composite literal does not mention Extra, which therefore stays at its zero
value (empty). -/
def toExecutableL2Data (env : Env) (b : Block) : ExecutableL2Data :=
  { parentHash := b.header.parentHash
    number := b.header.number
    miner := b.header.coinbase
    timestamp := b.header.time
    gasLimit := b.header.gasLimit
    baseFee := b.header.baseFee
    extra := []
    transactions := encodeTransactions env b.txs
    stateRoot := b.header.root
    gasUsed := b.header.gasUsed
    receiptRoot := b.header.receiptHash
    logsBloom := env.bloomBytes b.header.bloom }

/-- paramsToBlock (lines 198-221): build a header from the descriptor fields
and the supplied BLS data (engine fields at zero), apply the engine prepare
hook, decode the transactions, then fill the derived transaction root and
the trusted receipt root / state root / bloom, and wrap header and body
into a block. -/
def paramsToBlock (env : Env) (params : ExecutableL2Data) (blsData : BLSData) :
    Except Err Block :=
  let header0 : Header :=
    { parentHash := params.parentHash
      number := params.number
      gasUsed := params.gasUsed
      gasLimit := params.gasLimit
      time := params.timestamp
      coinbase := params.miner
      extra := params.extra
      blsData := blsData
      baseFee := params.baseFee
      difficulty := 0
      txHash := 0
      receiptHash := 0
      root := 0
      bloom := 0 }
  let header1 := env.prepare header0
  match decodeTransactions env params.transactions with
  | Except.error e => Except.error e
  | Except.ok txs =>
    Except.ok
      ⟨{ header1 with
          txHash := env.deriveSha txs
          receiptHash := params.receiptRoot
          root := params.stateRoot
          bloom := env.bytesToBloom params.logsBloom }, txs⟩

/-- VerifyBlock (lines 223-232): engine header verification, then the
chain-config transaction-count policy. -/
def VerifyBlock (env : Env) (block : Block) : Option Err :=
  match env.verifyHeader block.header with
  | some e => some e
  | none =>
    if env.isValidTxCount block.txs.length then none
    else some "invalid tx count"

/-- AssembleL2Block (lines 56-103): check linearity against the current
header, decode the transactions, ask the miner for a sealed block and
state, return no result for an empty-transaction-root block, otherwise
cache the execution result under the content hash of the block and return the
wire descriptor. -/
def AssembleL2Block (env : Env) (st : ChainState) (params : AssembleL2BlockParams) :
    Except Err (Option ExecutableL2Data) × ChainState :=
  let parent := st.head.header
  let expected := parent.number + 1
  if params.number ≠ expected then
    (Except.error (discontinuityMsg params.number expected), st)
  else
    match decodeTxsLoop env 0 params.transactions with
    | Except.error e => (Except.error e, st)
    | Except.ok txs =>
      match env.getSealing (env.hashHeader parent) txs with
      | Except.error e => (Except.error e, st)
      | Except.ok (block, sdb, rcpts) =>
        if block.header.txHash = env.emptyRootHash then
          (Except.ok none, st)
        else
          (Except.ok (some (toExecutableL2Data env block)),
           { st with
               verified := cacheInsert st.verified (env.hashHeader block.header)
                 ⟨block, sdb, rcpts, env.elapsed⟩ })

/-- ValidateL2Block (lines 105-158): linearity and parent checks against the
current block, materialize with zero BLS data, succeed immediately on a
cache hit, otherwise report engine-verification / body-validation /
execution failures as a false response, caching the execution result on
success. -/
def ValidateL2Block (env : Env) (st : ChainState) (params : ExecutableL2Data) :
    Except Err GenericResponse × ChainState :=
  let parent := st.head
  let expected := parent.header.number + 1
  if params.number ≠ expected then
    (Except.error (discontinuityMsg params.number expected), st)
  else if params.parentHash ≠ env.hashHeader parent.header then
    (Except.error (parentMismatchMsg params.parentHash (env.hashHeader parent.header)), st)
  else
    match paramsToBlock env params 0 with
    | Except.error e => (Except.error e, st)
    | Except.ok block =>
      if (cacheLookup st.verified (env.hashHeader block.header)).isSome then
        (Except.ok ⟨true⟩, st)
      else
        let st1 := { st with verifyCalls := st.verifyCalls + 1 }
        match VerifyBlock env block with
        | some _ => (Except.ok ⟨false⟩, st1)
        | none =>
          let st2 := { st1 with bodyCalls := st1.bodyCalls + 1 }
          match env.validateBody block with
          | some _ => (Except.ok ⟨false⟩, st2)
          | none =>
            let st3 := { st2 with procCalls := st2.procCalls + 1 }
            match env.processBlock block parent.header with
            | Except.error _ => (Except.ok ⟨false⟩, st3)
            | Except.ok (sdb, rcpts, pt) =>
              (Except.ok ⟨true⟩,
               { st3 with
                   verified := cacheInsert st3.verified (env.hashHeader block.header)
                     ⟨block, sdb, rcpts, pt⟩ })

/-- NewL2Block (lines 160-196): linearity and parent checks, materialize with
the BLS data of the caller; on a cache hit write the cached result and advance
the head, clearing the whole cache exactly when the write succeeded; on a
miss verify, execute and write directly, propagating every failure.
`WriteStateAndSetHead` is external; it is modelled as advancing the head
exactly when it succeeds. -/
def NewL2Block (env : Env) (st : ChainState) (params : ExecutableL2Data) (bls : BLSData) :
    Option Err × ChainState :=
  let parent := st.head
  let expected := parent.header.number + 1
  if params.number ≠ expected then
    (some (discontinuityMsg params.number expected), st)
  else if params.parentHash ≠ env.hashHeader parent.header then
    (some (parentMismatchMsg params.parentHash (env.hashHeader parent.header)), st)
  else
    match paramsToBlock env params bls with
    | Except.error e => (some e, st)
    | Except.ok block =>
      match cacheLookup st.verified (env.hashHeader block.header) with
      | some bas =>
        let st1 := { st with writeCalls := st.writeCalls + 1 }
        match env.writeResult block bas.receipts bas.state bas.procTime with
        | none => (none, { st1 with head := block, verified := [] })
        | some e => (some e, st1)
      | none =>
        let st1 := { st with verifyCalls := st.verifyCalls + 1 }
        match VerifyBlock env block with
        | some e => (some e, st1)
        | none =>
          let st2 := { st1 with procCalls := st1.procCalls + 1 }
          match env.processBlock block parent.header with
          | Except.error e => (some e, st2)
          | Except.ok (sdb, rcpts, pt) =>
            let st3 := { st2 with writeCalls := st2.writeCalls + 1 }
            match env.writeResult block rcpts sdb pt with
            | none => (none, { st3 with head := block })
            | some e => (some e, st3)

/-- A fresh binding is the one a lookup at its key sees. -/
@[simp]
theorem cacheLookup_cacheInsert_self (c : List (Hash × executionResult)) (k : Hash)
    (v : executionResult) : cacheLookup (cacheInsert c k v) k = some v := by
  simp [cacheLookup, cacheInsert]

/-- The decode loop fails at the first undecodable envelope, reporting its
absolute index. -/
theorem decodeTxsLoop_first_error (env : Env) (pre : List Bytes) (bad : Bytes)
    (rest : List Bytes) (e : Err)
    (hpre : ∀ b ∈ pre, ∃ tx, env.decodeTx b = Except.ok tx)
    (hbad : env.decodeTx bad = Except.error e) :
    ∀ i, decodeTxsLoop env i (pre ++ bad :: rest) =
      Except.error (txDecodeMsg (i + pre.length) e) := by
  induction pre with
  | nil => intro i; simp [decodeTxsLoop, hbad]
  | cons b l ih =>
    intro i
    obtain ⟨tx, htx⟩ := hpre b (by simp)
    have ih2 := ih (fun x hx => hpre x (by simp [hx])) (i + 1)
    simp only [List.cons_append, decodeTxsLoop, htx, List.append_eq, ih2, List.length_cons]
    have harith : i + 1 + l.length = i + (l.length + 1) := by omega
    rw [harith]

/-- Decoding an encoded transaction list succeeds when the codec round-trips. -/
theorem decodeTxsLoop_map_encode (env : Env)
    (hrt : ∀ tx, env.decodeTx (env.encodeTx tx) = Except.ok tx) :
    ∀ (i : Nat) (txs : List Tx),
      decodeTxsLoop env i (txs.map env.encodeTx) = Except.ok txs := by
  intro i txs
  induction txs generalizing i with
  | nil => simp [decodeTxsLoop]
  | cons t l ih => simp [decodeTxsLoop, hrt t, ih (i + 1)]

/-- AssembleL2Block path lemma: discontinuous number. -/
theorem AssembleL2Block_discontinuous (env : Env) (st : ChainState)
    (params : AssembleL2BlockParams)
    (hnum : params.number ≠ st.head.header.number + 1) :
    AssembleL2Block env st params =
      (Except.error (discontinuityMsg params.number (st.head.header.number + 1)), st) := by
  simp [AssembleL2Block, hnum]

/-- AssembleL2Block path lemma: transaction decode failure. -/
theorem AssembleL2Block_decode_error (env : Env) (st : ChainState)
    (params : AssembleL2BlockParams) (e : Err)
    (hnum : params.number = st.head.header.number + 1)
    (hdec : decodeTxsLoop env 0 params.transactions = Except.error e) :
    AssembleL2Block env st params = (Except.error e, st) := by
  simp [AssembleL2Block, hnum, hdec]

/-- AssembleL2Block path lemma: empty transaction root, no result and no
state change. -/
theorem AssembleL2Block_empty (env : Env) (st : ChainState)
    (params : AssembleL2BlockParams) (txs : List Tx) (block : Block)
    (sdb : StateDB) (rcpts : Receipts)
    (hnum : params.number = st.head.header.number + 1)
    (hdec : decodeTxsLoop env 0 params.transactions = Except.ok txs)
    (hseal : env.getSealing (env.hashHeader st.head.header) txs =
      Except.ok (block, sdb, rcpts))
    (hempty : block.header.txHash = env.emptyRootHash) :
    AssembleL2Block env st params = (Except.ok none, st) := by
  simp [AssembleL2Block, hnum, hdec, hseal, hempty]

/-- AssembleL2Block path lemma: success, returning the descriptor and caching
the execution result. -/
theorem AssembleL2Block_success (env : Env) (st : ChainState)
    (params : AssembleL2BlockParams) (txs : List Tx) (block : Block)
    (sdb : StateDB) (rcpts : Receipts)
    (hnum : params.number = st.head.header.number + 1)
    (hdec : decodeTxsLoop env 0 params.transactions = Except.ok txs)
    (hseal : env.getSealing (env.hashHeader st.head.header) txs =
      Except.ok (block, sdb, rcpts))
    (hne : block.header.txHash ≠ env.emptyRootHash) :
    AssembleL2Block env st params =
      (Except.ok (some (toExecutableL2Data env block)),
       { st with
           verified := cacheInsert st.verified (env.hashHeader block.header)
             ⟨block, sdb, rcpts, env.elapsed⟩ }) := by
  simp [AssembleL2Block, hnum, hdec, hseal, hne]

/-- ValidateL2Block path lemma: discontinuous number. -/
theorem ValidateL2Block_discontinuous (env : Env) (st : ChainState)
    (params : ExecutableL2Data)
    (hnum : params.number ≠ st.head.header.number + 1) :
    ValidateL2Block env st params =
      (Except.error (discontinuityMsg params.number (st.head.header.number + 1)), st) := by
  simp [ValidateL2Block, hnum]

/-- ValidateL2Block path lemma: parent-hash mismatch. -/
theorem ValidateL2Block_parent_mismatch (env : Env) (st : ChainState)
    (params : ExecutableL2Data)
    (hnum : params.number = st.head.header.number + 1)
    (hpar : params.parentHash ≠ env.hashHeader st.head.header) :
    ValidateL2Block env st params =
      (Except.error
        (parentMismatchMsg params.parentHash (env.hashHeader st.head.header)), st) := by
  simp [ValidateL2Block, hnum, hpar]

/-- ValidateL2Block path lemma: materialization (decode) failure. -/
theorem ValidateL2Block_decode_error (env : Env) (st : ChainState)
    (params : ExecutableL2Data) (e : Err)
    (hnum : params.number = st.head.header.number + 1)
    (hpar : params.parentHash = env.hashHeader st.head.header)
    (hmat : paramsToBlock env params 0 = Except.error e) :
    ValidateL2Block env st params = (Except.error e, st) := by
  simp [ValidateL2Block, hnum, hpar, hmat]

/-- ValidateL2Block path lemma: cache hit, immediate success with no state
change at all. -/
theorem ValidateL2Block_cache_hit (env : Env) (st : ChainState)
    (params : ExecutableL2Data) (block : Block)
    (hnum : params.number = st.head.header.number + 1)
    (hpar : params.parentHash = env.hashHeader st.head.header)
    (hmat : paramsToBlock env params 0 = Except.ok block)
    (hhit : (cacheLookup st.verified (env.hashHeader block.header)).isSome) :
    ValidateL2Block env st params = (Except.ok ⟨true⟩, st) := by
  simp [ValidateL2Block, hnum, hpar, hmat, hhit]

/-- ValidateL2Block path lemma: engine verification failure on a cache miss
is a false response, not an error. -/
theorem ValidateL2Block_verify_fail (env : Env) (st : ChainState)
    (params : ExecutableL2Data) (block : Block) (e : Err)
    (hnum : params.number = st.head.header.number + 1)
    (hpar : params.parentHash = env.hashHeader st.head.header)
    (hmat : paramsToBlock env params 0 = Except.ok block)
    (hmiss : cacheLookup st.verified (env.hashHeader block.header) = none)
    (hv : VerifyBlock env block = some e) :
    ValidateL2Block env st params =
      (Except.ok ⟨false⟩, { st with verifyCalls := st.verifyCalls + 1 }) := by
  simp [ValidateL2Block, hnum, hpar, hmat, hmiss, hv]

/-- ValidateL2Block path lemma: body validation failure on a cache miss is a
false response, not an error. -/
theorem ValidateL2Block_body_fail (env : Env) (st : ChainState)
    (params : ExecutableL2Data) (block : Block) (e : Err)
    (hnum : params.number = st.head.header.number + 1)
    (hpar : params.parentHash = env.hashHeader st.head.header)
    (hmat : paramsToBlock env params 0 = Except.ok block)
    (hmiss : cacheLookup st.verified (env.hashHeader block.header) = none)
    (hv : VerifyBlock env block = none)
    (hb : env.validateBody block = some e) :
    ValidateL2Block env st params =
      (Except.ok ⟨false⟩,
       { st with verifyCalls := st.verifyCalls + 1, bodyCalls := st.bodyCalls + 1 }) := by
  simp [ValidateL2Block, hnum, hpar, hmat, hmiss, hv, hb]

/-- ValidateL2Block path lemma: executor failure on a cache miss is a false
response, not an error, and nothing is cached. -/
theorem ValidateL2Block_process_fail (env : Env) (st : ChainState)
    (params : ExecutableL2Data) (block : Block) (e : Err)
    (hnum : params.number = st.head.header.number + 1)
    (hpar : params.parentHash = env.hashHeader st.head.header)
    (hmat : paramsToBlock env params 0 = Except.ok block)
    (hmiss : cacheLookup st.verified (env.hashHeader block.header) = none)
    (hv : VerifyBlock env block = none)
    (hb : env.validateBody block = none)
    (hp : env.processBlock block st.head.header = Except.error e) :
    ValidateL2Block env st params =
      (Except.ok ⟨false⟩,
       { st with
           verifyCalls := st.verifyCalls + 1, bodyCalls := st.bodyCalls + 1,
           procCalls := st.procCalls + 1 }) := by
  simp [ValidateL2Block, hnum, hpar, hmat, hmiss, hv, hb, hp]

/-- ValidateL2Block path lemma: successful re-execution on a cache miss
returns true and caches the execution result. -/
theorem ValidateL2Block_process_ok (env : Env) (st : ChainState)
    (params : ExecutableL2Data) (block : Block) (sdb : StateDB)
    (rcpts : Receipts) (pt : Nat)
    (hnum : params.number = st.head.header.number + 1)
    (hpar : params.parentHash = env.hashHeader st.head.header)
    (hmat : paramsToBlock env params 0 = Except.ok block)
    (hmiss : cacheLookup st.verified (env.hashHeader block.header) = none)
    (hv : VerifyBlock env block = none)
    (hb : env.validateBody block = none)
    (hp : env.processBlock block st.head.header = Except.ok (sdb, rcpts, pt)) :
    ValidateL2Block env st params =
      (Except.ok ⟨true⟩,
       { st with
           verifyCalls := st.verifyCalls + 1, bodyCalls := st.bodyCalls + 1,
           procCalls := st.procCalls + 1,
           verified := cacheInsert st.verified (env.hashHeader block.header)
             ⟨block, sdb, rcpts, pt⟩ }) := by
  simp [ValidateL2Block, hnum, hpar, hmat, hmiss, hv, hb, hp]

/-- NewL2Block path lemma: discontinuous number. -/
theorem NewL2Block_discontinuous (env : Env) (st : ChainState)
    (params : ExecutableL2Data) (bls : BLSData)
    (hnum : params.number ≠ st.head.header.number + 1) :
    NewL2Block env st params bls =
      (some (discontinuityMsg params.number (st.head.header.number + 1)), st) := by
  simp [NewL2Block, hnum]

/-- NewL2Block path lemma: parent-hash mismatch. -/
theorem NewL2Block_parent_mismatch (env : Env) (st : ChainState)
    (params : ExecutableL2Data) (bls : BLSData)
    (hnum : params.number = st.head.header.number + 1)
    (hpar : params.parentHash ≠ env.hashHeader st.head.header) :
    NewL2Block env st params bls =
      (some (parentMismatchMsg params.parentHash (env.hashHeader st.head.header)), st) := by
  simp [NewL2Block, hnum, hpar]

/-- NewL2Block path lemma: materialization (decode) failure. -/
theorem NewL2Block_decode_error (env : Env) (st : ChainState)
    (params : ExecutableL2Data) (bls : BLSData) (e : Err)
    (hnum : params.number = st.head.header.number + 1)
    (hpar : params.parentHash = env.hashHeader st.head.header)
    (hmat : paramsToBlock env params bls = Except.error e) :
    NewL2Block env st params bls = (some e, st) := by
  simp [NewL2Block, hnum, hpar, hmat]

/-- NewL2Block path lemma: cache hit with a successful store write — head
advances to the materialized block and the whole cache is discarded; no
verification, body validation or execution happens. -/
theorem NewL2Block_hit_write_ok (env : Env) (st : ChainState)
    (params : ExecutableL2Data) (bls : BLSData) (block : Block)
    (bas : executionResult)
    (hnum : params.number = st.head.header.number + 1)
    (hpar : params.parentHash = env.hashHeader st.head.header)
    (hmat : paramsToBlock env params bls = Except.ok block)
    (hhit : cacheLookup st.verified (env.hashHeader block.header) = some bas)
    (hw : env.writeResult block bas.receipts bas.state bas.procTime = none) :
    NewL2Block env st params bls =
      (none,
       { st with head := block, verified := [], writeCalls := st.writeCalls + 1 }) := by
  simp [NewL2Block, hnum, hpar, hmat, hhit, hw]

/-- NewL2Block path lemma: cache hit with a failing store write — the error
propagates and the cache is kept. -/
theorem NewL2Block_hit_write_fail (env : Env) (st : ChainState)
    (params : ExecutableL2Data) (bls : BLSData) (block : Block)
    (bas : executionResult) (e : Err)
    (hnum : params.number = st.head.header.number + 1)
    (hpar : params.parentHash = env.hashHeader st.head.header)
    (hmat : paramsToBlock env params bls = Except.ok block)
    (hhit : cacheLookup st.verified (env.hashHeader block.header) = some bas)
    (hw : env.writeResult block bas.receipts bas.state bas.procTime = some e) :
    NewL2Block env st params bls =
      (some e, { st with writeCalls := st.writeCalls + 1 }) := by
  simp [NewL2Block, hnum, hpar, hmat, hhit, hw]

/-- NewL2Block path lemma: cache miss with failing engine verification — the
error propagates. -/
theorem NewL2Block_miss_verify_fail (env : Env) (st : ChainState)
    (params : ExecutableL2Data) (bls : BLSData) (block : Block) (e : Err)
    (hnum : params.number = st.head.header.number + 1)
    (hpar : params.parentHash = env.hashHeader st.head.header)
    (hmat : paramsToBlock env params bls = Except.ok block)
    (hmiss : cacheLookup st.verified (env.hashHeader block.header) = none)
    (hv : VerifyBlock env block = some e) :
    NewL2Block env st params bls =
      (some e, { st with verifyCalls := st.verifyCalls + 1 }) := by
  simp [NewL2Block, hnum, hpar, hmat, hmiss, hv]

/-- NewL2Block path lemma: cache miss with failing execution — the error
propagates. -/
theorem NewL2Block_miss_process_fail (env : Env) (st : ChainState)
    (params : ExecutableL2Data) (bls : BLSData) (block : Block) (e : Err)
    (hnum : params.number = st.head.header.number + 1)
    (hpar : params.parentHash = env.hashHeader st.head.header)
    (hmat : paramsToBlock env params bls = Except.ok block)
    (hmiss : cacheLookup st.verified (env.hashHeader block.header) = none)
    (hv : VerifyBlock env block = none)
    (hp : env.processBlock block st.head.header = Except.error e) :
    NewL2Block env st params bls =
      (some e,
       { st with verifyCalls := st.verifyCalls + 1, procCalls := st.procCalls + 1 }) := by
  simp [NewL2Block, hnum, hpar, hmat, hmiss, hv, hp]

/-- NewL2Block path lemma: cache miss, successful execution, failing store
write — the error propagates. -/
theorem NewL2Block_miss_write_fail (env : Env) (st : ChainState)
    (params : ExecutableL2Data) (bls : BLSData) (block : Block)
    (sdb : StateDB) (rcpts : Receipts) (pt : Nat) (e : Err)
    (hnum : params.number = st.head.header.number + 1)
    (hpar : params.parentHash = env.hashHeader st.head.header)
    (hmat : paramsToBlock env params bls = Except.ok block)
    (hmiss : cacheLookup st.verified (env.hashHeader block.header) = none)
    (hv : VerifyBlock env block = none)
    (hp : env.processBlock block st.head.header = Except.ok (sdb, rcpts, pt))
    (hw : env.writeResult block rcpts sdb pt = some e) :
    NewL2Block env st params bls =
      (some e,
       { st with
           verifyCalls := st.verifyCalls + 1, procCalls := st.procCalls + 1,
           writeCalls := st.writeCalls + 1 }) := by
  simp [NewL2Block, hnum, hpar, hmat, hmiss, hv, hp, hw]

/-- NewL2Block path lemma: cache miss, successful re-execution and store
write — head advances but the cache is NOT cleared (the Go code clears it
only on the hit path). -/
theorem NewL2Block_miss_write_ok (env : Env) (st : ChainState)
    (params : ExecutableL2Data) (bls : BLSData) (block : Block)
    (sdb : StateDB) (rcpts : Receipts) (pt : Nat)
    (hnum : params.number = st.head.header.number + 1)
    (hpar : params.parentHash = env.hashHeader st.head.header)
    (hmat : paramsToBlock env params bls = Except.ok block)
    (hmiss : cacheLookup st.verified (env.hashHeader block.header) = none)
    (hv : VerifyBlock env block = none)
    (hp : env.processBlock block st.head.header = Except.ok (sdb, rcpts, pt))
    (hw : env.writeResult block rcpts sdb pt = none) :
    NewL2Block env st params bls =
      (none,
       { st with
           head := block, verifyCalls := st.verifyCalls + 1,
           procCalls := st.procCalls + 1, writeCalls := st.writeCalls + 1 }) := by
  simp [NewL2Block, hnum, hpar, hmat, hmiss, hv, hp, hw]

/-- paramsToBlock fails exactly when the transaction decode fails, with the
same error. -/
theorem paramsToBlock_error_iff (env : Env) (params : ExecutableL2Data)
    (bls : BLSData) (e : Err) :
    paramsToBlock env params bls = Except.error e ↔
      decodeTransactions env params.transactions = Except.error e := by
  unfold paramsToBlock
  cases h : decodeTransactions env params.transactions <;> simp [h]

/-- Inversion: a propagated error from ValidateL2Block can only come from
the discontinuity check, the parent-hash check, or transaction decoding. -/
theorem ValidateL2Block_error_inv (env : Env) (st : ChainState)
    (params : ExecutableL2Data) (e : Err)
    (h1 : (ValidateL2Block env st params).1 = Except.error e) :
    params.number ≠ st.head.header.number + 1 ∨
      params.parentHash ≠ env.hashHeader st.head.header ∨
      decodeTransactions env params.transactions = Except.error e := by
  by_cases hnum : params.number = st.head.header.number + 1
  · by_cases hpar : params.parentHash = env.hashHeader st.head.header
    · cases hmat : paramsToBlock env params 0 with
      | error e0 =>
        rw [ValidateL2Block_decode_error env st params e0 hnum hpar hmat] at h1
        simp only [Except.error.injEq] at h1
        subst h1
        exact Or.inr (Or.inr ((paramsToBlock_error_iff env params 0 e0).mp hmat))
      | ok blk =>
        cases hc : cacheLookup st.verified (env.hashHeader blk.header) with
        | some bas =>
          rw [ValidateL2Block_cache_hit env st params blk hnum hpar hmat
            (by simp [hc])] at h1
          simp at h1
        | none =>
          cases hv : VerifyBlock env blk with
          | some e2 =>
            rw [ValidateL2Block_verify_fail env st params blk e2 hnum hpar hmat hc hv] at h1
            simp at h1
          | none =>
            cases hb : env.validateBody blk with
            | some e2 =>
              rw [ValidateL2Block_body_fail env st params blk e2 hnum hpar hmat hc hv hb] at h1
              simp at h1
            | none =>
              cases hp : env.processBlock blk st.head.header with
              | error e2 =>
                rw [ValidateL2Block_process_fail env st params blk e2 hnum hpar hmat
                  hc hv hb hp] at h1
                simp at h1
              | ok tri =>
                obtain ⟨sdb, rcpts, pt⟩ := tri
                rw [ValidateL2Block_process_ok env st params blk sdb rcpts pt hnum hpar hmat
                  hc hv hb hp] at h1
                simp at h1
    · exact Or.inr (Or.inl hpar)
  · exact Or.inl hnum

/-- Inversion: a true response from ValidateL2Block means the preamble
passed, the head is untouched, and the materialized block is now in the
cache of the post-state. -/
theorem ValidateL2Block_true_inv (env : Env) (st : ChainState)
    (params : ExecutableL2Data) (st1 : ChainState)
    (h1 : ValidateL2Block env st params = (Except.ok ⟨true⟩, st1)) :
    params.number = st.head.header.number + 1 ∧
      params.parentHash = env.hashHeader st.head.header ∧
      st1.head = st.head ∧
      ∃ blk, paramsToBlock env params 0 = Except.ok blk ∧
        (cacheLookup st1.verified (env.hashHeader blk.header)).isSome := by
  by_cases hnum : params.number = st.head.header.number + 1
  · by_cases hpar : params.parentHash = env.hashHeader st.head.header
    · cases hmat : paramsToBlock env params 0 with
      | error e0 =>
        rw [ValidateL2Block_decode_error env st params e0 hnum hpar hmat] at h1
        simp at h1
      | ok blk =>
        cases hc : cacheLookup st.verified (env.hashHeader blk.header) with
        | some bas =>
          rw [ValidateL2Block_cache_hit env st params blk hnum hpar hmat
            (by simp [hc])] at h1
          have hst : st = st1 := by
            simpa using congrArg Prod.snd h1
          subst hst
          exact ⟨hnum, hpar, rfl, blk, rfl, by simp [hc]⟩
        | none =>
          cases hv : VerifyBlock env blk with
          | some e2 =>
            rw [ValidateL2Block_verify_fail env st params blk e2 hnum hpar hmat hc hv] at h1
            simp at h1
          | none =>
            cases hb : env.validateBody blk with
            | some e2 =>
              rw [ValidateL2Block_body_fail env st params blk e2 hnum hpar hmat hc hv hb] at h1
              simp at h1
            | none =>
              cases hp : env.processBlock blk st.head.header with
              | error e2 =>
                rw [ValidateL2Block_process_fail env st params blk e2 hnum hpar hmat
                  hc hv hb hp] at h1
                simp at h1
              | ok tri =>
                obtain ⟨sdb, rcpts, pt⟩ := tri
                rw [ValidateL2Block_process_ok env st params blk sdb rcpts pt hnum hpar hmat
                  hc hv hb hp] at h1
                have hst := congrArg Prod.snd h1
                simp only at hst
                subst hst
                exact ⟨hnum, hpar, rfl, blk, rfl, by simp⟩
    · rw [ValidateL2Block_parent_mismatch env st params hnum hpar] at h1
      simp at h1
  · rw [ValidateL2Block_discontinuous env st params hnum] at h1
    simp at h1

/-- An injective encoding of byte strings into naturals, used to build
concrete collision-free content-hash functions in the examples. -/
def natListEncode : List Nat → Nat
  | [] => 0
  | a :: l => Nat.pair a (natListEncode l) + 1

/-- natListEncode is injective. -/
theorem natListEncode_inj : ∀ l1 l2, natListEncode l1 = natListEncode l2 → l1 = l2
  | [], [], _ => rfl
  | [], _ :: _, h => by simp [natListEncode] at h
  | _ :: _, [], h => by simp [natListEncode] at h
  | a :: l1, b :: l2, h => by
    have h2 : Nat.pair a (natListEncode l1) = Nat.pair b (natListEncode l2) := by
      simpa [natListEncode] using h
    obtain ⟨hab, h3⟩ := Nat.pair_eq_pair.mp h2
    rw [hab, natListEncode_inj l1 l2 h3]

/-- A header with every field at its Go zero value. -/
def exHeader : Header :=
  { parentHash := 0, number := 0, gasUsed := 0, gasLimit := 0, time := 0,
    coinbase := 0, extra := [], blsData := 0, baseFee := 0, difficulty := 0,
    txHash := 0, receiptHash := 0, root := 0, bloom := 0 }

/-- A genesis-like head block used by the examples. -/
def exGenesis : Block := ⟨exHeader, []⟩

/-- A concrete environment: content hash = block number, envelope `[t]`
decodes to transaction `t`, every check passes, execution and store write
succeed. -/
def exEnv : Env :=
  { hashHeader := fun h => h.number
    deriveSha := fun _ => 0
    emptyRootHash := 999
    decodeTx := fun b =>
      match b with
      | [t] => Except.ok t
      | _ => Except.error "bad envelope"
    encodeTx := fun t => [t]
    prepare := id
    verifyHeader := fun _ => none
    isValidTxCount := fun _ => true
    validateBody := fun _ => none
    getSealing := fun _ _ => Except.error "no sealing"
    processBlock := fun _ _ => Except.ok (0, 0, 0)
    writeResult := fun _ _ _ _ => none
    bytesToBloom := fun l => l.headD 0
    bloomBytes := fun b => [b]
    elapsed := 0 }

/-- Fresh coordinator state over the genesis head. -/
def exSt0 : ChainState := { head := exGenesis, verified := [] }

/-- A well-formed next-block descriptor for the genesis head, no transactions. -/
def exD1 : ExecutableL2Data :=
  { parentHash := 0, number := 1, miner := 0, timestamp := 0, gasLimit := 0,
    baseFee := 0, extra := [], transactions := [], stateRoot := 0, gasUsed := 0,
    receiptRoot := 0, logsBloom := [] }

/-- The block exD1 materializes to under exEnv. -/
def exBlk1 : Block := ⟨{ exHeader with number := 1 }, []⟩

/-- Claim C6: for every descriptor whose number differs from head.number + 1,
both ValidateL2Block and NewL2Block fail with the discontinuity error naming
the actual and expected numbers, and mutate nothing (cache, head and all
counters unchanged). -/
theorem discontinuity_rejection (env : Env) (st : ChainState)
    (params : ExecutableL2Data) (bls : BLSData)
    (hnum : params.number ≠ st.head.header.number + 1) :
    ValidateL2Block env st params =
      (Except.error (discontinuityMsg params.number (st.head.header.number + 1)), st) ∧
    NewL2Block env st params bls =
      (some (discontinuityMsg params.number (st.head.header.number + 1)), st) :=
  ⟨ValidateL2Block_discontinuous env st params hnum,
   NewL2Block_discontinuous env st params bls hnum⟩

/-- Witness for C6 at a concrete discontinuous descriptor (number 5 on head 0). -/
theorem discontinuity_rejection_witness :
    ValidateL2Block exEnv exSt0 { exD1 with number := 5 } =
      (Except.error (discontinuityMsg 5 1), exSt0) ∧
    NewL2Block exEnv exSt0 { exD1 with number := 5 } 0 =
      (some (discontinuityMsg 5 1), exSt0) :=
  discontinuity_rejection exEnv exSt0 { exD1 with number := 5 } 0 (by decide)

/-- Claim C7: for every descriptor with the correct number but a parent hash
different from the hash of the head, both ValidateL2Block and NewL2Block fail
with the parent-mismatch error naming the actual and expected hashes, and
mutate nothing. -/
theorem parent_mismatch_rejection (env : Env) (st : ChainState)
    (params : ExecutableL2Data) (bls : BLSData)
    (hnum : params.number = st.head.header.number + 1)
    (hpar : params.parentHash ≠ env.hashHeader st.head.header) :
    ValidateL2Block env st params =
      (Except.error
        (parentMismatchMsg params.parentHash (env.hashHeader st.head.header)), st) ∧
    NewL2Block env st params bls =
      (some (parentMismatchMsg params.parentHash (env.hashHeader st.head.header)), st) :=
  ⟨ValidateL2Block_parent_mismatch env st params hnum hpar,
   NewL2Block_parent_mismatch env st params bls hnum hpar⟩

/-- Witness for C7 at a concrete wrong-parent descriptor (parent hash 77,
head hash 0). -/
theorem parent_mismatch_rejection_witness :
    ValidateL2Block exEnv exSt0 { exD1 with parentHash := 77 } =
      (Except.error (parentMismatchMsg 77 0), exSt0) ∧
    NewL2Block exEnv exSt0 { exD1 with parentHash := 77 } 0 =
      (some (parentMismatchMsg 77 0), exSt0) :=
  parent_mismatch_rejection exEnv exSt0 { exD1 with parentHash := 77 } 0
    (by decide) (by decide)

/-- Claim C8: whenever the miner returns a block whose transaction root is
the empty root hash, AssembleL2Block returns no descriptor and no error and
leaves the state — in particular the verified cache — untouched. -/
theorem assemble_empty_block_noop (env : Env) (st : ChainState)
    (params : AssembleL2BlockParams) (txs : List Tx) (block : Block)
    (sdb : StateDB) (rcpts : Receipts)
    (hnum : params.number = st.head.header.number + 1)
    (hdec : decodeTxsLoop env 0 params.transactions = Except.ok txs)
    (hseal : env.getSealing (env.hashHeader st.head.header) txs =
      Except.ok (block, sdb, rcpts))
    (hempty : block.header.txHash = env.emptyRootHash) :
    AssembleL2Block env st params = (Except.ok none, st) :=
  AssembleL2Block_empty env st params txs block sdb rcpts hnum hdec hseal hempty

/-- A miner block whose transaction root is the empty root hash. -/
def exEmptyBlk : Block := ⟨{ exHeader with number := 1, txHash := 999 }, []⟩

/-- Environment whose miner produces the empty-body block. -/
def exEnv8 : Env :=
  { exEnv with getSealing := fun _ _ => Except.ok (exEmptyBlk, 0, 0) }

/-- Witness for C8: assembling over an empty transaction list where the
miner produces an empty-body block is a no-op. -/
theorem assemble_empty_block_noop_witness :
    AssembleL2Block exEnv8 exSt0 ⟨1, []⟩ = (Except.ok none, exSt0) :=
  assemble_empty_block_noop exEnv8 exSt0 ⟨1, []⟩ [] exEmptyBlk 0 0
    rfl rfl rfl rfl

/-- Claim C9: when the transaction at index i is the first that fails to
decode, AssembleL2Block fails with an error naming index i, and leaves the
state — in particular the verified cache — untouched. -/
theorem assemble_decode_error_index (env : Env) (st : ChainState)
    (params : AssembleL2BlockParams) (pre : List Bytes) (bad : Bytes)
    (rest : List Bytes) (e : Err)
    (hnum : params.number = st.head.header.number + 1)
    (hsplit : params.transactions = pre ++ bad :: rest)
    (hpre : ∀ b ∈ pre, ∃ tx, env.decodeTx b = Except.ok tx)
    (hbad : env.decodeTx bad = Except.error e) :
    AssembleL2Block env st params =
      (Except.error (txDecodeMsg pre.length e), st) := by
  have hdec : decodeTxsLoop env 0 params.transactions =
      Except.error (txDecodeMsg (0 + pre.length) e) := by
    rw [hsplit]
    exact decodeTxsLoop_first_error env pre bad rest e hpre hbad 0
  rw [Nat.zero_add] at hdec
  exact AssembleL2Block_decode_error env st params _ hnum hdec

/-- Witness for C9: the envelope at index 2 of 5 fails to decode and the
error names index 2. -/
theorem assemble_decode_error_index_witness :
    AssembleL2Block exEnv exSt0 ⟨1, [[1], [2], [], [4], [5]]⟩ =
      (Except.error (txDecodeMsg 2 "bad envelope"), exSt0) :=
  assemble_decode_error_index exEnv exSt0 ⟨1, [[1], [2], [], [4], [5]]⟩
    [[1], [2]] [] [[4], [5]] "bad envelope" rfl rfl
    (by
      intro b hb
      simp only [List.mem_cons, List.not_mem_nil, or_false] at hb
      rcases hb with rfl | rfl
      · exact ⟨1, rfl⟩
      · exact ⟨2, rfl⟩)
    rfl

/-- Claim C4: ValidateL2Block returns an error only for a discontinuous
number, a parent-hash mismatch, or a transaction decode failure; any
failure of engine verification (header rules or transaction-count policy),
of the structural body validator, or of the executor yields a response
with valid=false and no error. -/
theorem validate_error_taxonomy (env : Env) (st : ChainState)
    (params : ExecutableL2Data) :
    (∀ e, (ValidateL2Block env st params).1 = Except.error e →
      params.number ≠ st.head.header.number + 1 ∨
        params.parentHash ≠ env.hashHeader st.head.header ∨
        decodeTransactions env params.transactions = Except.error e) ∧
    (∀ block, params.number = st.head.header.number + 1 →
      params.parentHash = env.hashHeader st.head.header →
      paramsToBlock env params 0 = Except.ok block →
      cacheLookup st.verified (env.hashHeader block.header) = none →
      ((VerifyBlock env block).isSome ∨ (env.validateBody block).isSome ∨
        ∃ e, env.processBlock block st.head.header = Except.error e) →
      (ValidateL2Block env st params).1 = Except.ok ⟨false⟩) := by
  constructor
  · intro e he
    exact ValidateL2Block_error_inv env st params e he
  · intro block hnum hpar hmat hmiss hfail
    cases hv : VerifyBlock env block with
    | some e =>
      rw [ValidateL2Block_verify_fail env st params block e hnum hpar hmat hmiss hv]
    | none =>
      cases hb : env.validateBody block with
      | some e =>
        rw [ValidateL2Block_body_fail env st params block e hnum hpar hmat hmiss hv hb]
      | none =>
        cases hp : env.processBlock block st.head.header with
        | error e =>
          rw [ValidateL2Block_process_fail env st params block e hnum hpar hmat hmiss hv hb hp]
        | ok tri =>
          rcases hfail with h | h | ⟨e, h⟩
          · rw [hv] at h; simp at h
          · rw [hb] at h; simp at h
          · rw [hp] at h; simp at h

/-- Environment whose engine rejects every header. -/
def exEnv4 : Env := { exEnv with verifyHeader := fun _ => some "invalid header" }

/-- Witness for C4: a concrete engine-verification failure is reported as a
false response, not an error. -/
theorem validate_error_taxonomy_witness :
    (ValidateL2Block exEnv4 exSt0 exD1).1 = Except.ok ⟨false⟩ :=
  (validate_error_taxonomy exEnv4 exSt0 exD1).2 exBlk1 rfl rfl rfl rfl
    (Or.inl (by decide))

/-- Claim C5: on a cache miss NewL2Block runs the same engine verification
as the Validator path (the shared VerifyBlock: engine header verification
plus the transaction-count policy) exactly once, and a failure of that
verification, of the executor, or of the store write propagates to the
caller as an error. -/
theorem newL2Block_miss_error_propagation (env : Env) (st : ChainState)
    (params : ExecutableL2Data) (bls : BLSData) (block : Block)
    (hnum : params.number = st.head.header.number + 1)
    (hpar : params.parentHash = env.hashHeader st.head.header)
    (hmat : paramsToBlock env params bls = Except.ok block)
    (hmiss : cacheLookup st.verified (env.hashHeader block.header) = none) :
    (NewL2Block env st params bls).2.verifyCalls = st.verifyCalls + 1 ∧
    (∀ e, VerifyBlock env block = some e →
      NewL2Block env st params bls =
        (some e, { st with verifyCalls := st.verifyCalls + 1 })) ∧
    (∀ e, VerifyBlock env block = none →
      env.processBlock block st.head.header = Except.error e →
      NewL2Block env st params bls =
        (some e,
         { st with verifyCalls := st.verifyCalls + 1, procCalls := st.procCalls + 1 })) ∧
    (∀ sdb rcpts pt e, VerifyBlock env block = none →
      env.processBlock block st.head.header = Except.ok (sdb, rcpts, pt) →
      env.writeResult block rcpts sdb pt = some e →
      NewL2Block env st params bls =
        (some e,
         { st with
             verifyCalls := st.verifyCalls + 1, procCalls := st.procCalls + 1,
             writeCalls := st.writeCalls + 1 })) := by
  refine ⟨?_, ?_, ?_, ?_⟩
  · cases hv : VerifyBlock env block with
    | some e =>
      rw [NewL2Block_miss_verify_fail env st params bls block e hnum hpar hmat hmiss hv]
    | none =>
      cases hp : env.processBlock block st.head.header with
      | error e =>
        rw [NewL2Block_miss_process_fail env st params bls block e hnum hpar hmat hmiss hv hp]
      | ok tri =>
        obtain ⟨sdb, rcpts, pt⟩ := tri
        cases hw : env.writeResult block rcpts sdb pt with
        | none =>
          rw [NewL2Block_miss_write_ok env st params bls block sdb rcpts pt hnum hpar hmat
            hmiss hv hp hw]
        | some e =>
          rw [NewL2Block_miss_write_fail env st params bls block sdb rcpts pt e hnum hpar
            hmat hmiss hv hp hw]
  · intro e hv
    exact NewL2Block_miss_verify_fail env st params bls block e hnum hpar hmat hmiss hv
  · intro e hv hp
    exact NewL2Block_miss_process_fail env st params bls block e hnum hpar hmat hmiss hv hp
  · intro sdb rcpts pt e hv hp hw
    exact NewL2Block_miss_write_fail env st params bls block sdb rcpts pt e hnum hpar hmat
      hmiss hv hp hw

/-- Environment whose executor fails every block. -/
def exEnv5 : Env := { exEnv with processBlock := fun _ _ => Except.error "execution failed" }

/-- Witness for C5: a concrete executor failure on the miss path propagates
as an error after one engine verification. -/
theorem newL2Block_miss_error_propagation_witness :
    NewL2Block exEnv5 exSt0 exD1 0 =
      (some "execution failed", { exSt0 with verifyCalls := 1, procCalls := 1 }) :=
  (newL2Block_miss_error_propagation exEnv5 exSt0 exD1 0 exBlk1 rfl rfl rfl rfl).2.2.1
    "execution failed" rfl rfl

/-- Claim C1 (amended): after a successful commit via NewL2Block on the
cache-hit path the entire verified cache is discarded; a successful commit
via the cache-miss (re-execution) path leaves the cache unchanged — the Go
code clears the map only inside the hit branch. -/
theorem newL2Block_commit_cache (env : Env) (st : ChainState)
    (params : ExecutableL2Data) (bls : BLSData) (block : Block)
    (hnum : params.number = st.head.header.number + 1)
    (hpar : params.parentHash = env.hashHeader st.head.header)
    (hmat : paramsToBlock env params bls = Except.ok block) :
    (∀ bas, cacheLookup st.verified (env.hashHeader block.header) = some bas →
      env.writeResult block bas.receipts bas.state bas.procTime = none →
      NewL2Block env st params bls =
        (none,
         { st with head := block, verified := [], writeCalls := st.writeCalls + 1 })) ∧
    (cacheLookup st.verified (env.hashHeader block.header) = none →
      (NewL2Block env st params bls).1 = none →
      (NewL2Block env st params bls).2.verified = st.verified) := by
  constructor
  · intro bas hhit hw
    exact NewL2Block_hit_write_ok env st params bls block bas hnum hpar hmat hhit hw
  · intro hmiss hok
    cases hv : VerifyBlock env block with
    | some e =>
      rw [NewL2Block_miss_verify_fail env st params bls block e hnum hpar hmat hmiss hv] at hok
      simp at hok
    | none =>
      cases hp : env.processBlock block st.head.header with
      | error e =>
        rw [NewL2Block_miss_process_fail env st params bls block e hnum hpar hmat
          hmiss hv hp] at hok
        simp at hok
      | ok tri =>
        obtain ⟨sdb, rcpts, pt⟩ := tri
        cases hw : env.writeResult block rcpts sdb pt with
        | some e =>
          rw [NewL2Block_miss_write_fail env st params bls block sdb rcpts pt e hnum hpar
            hmat hmiss hv hp hw] at hok
          simp at hok
        | none =>
          rw [NewL2Block_miss_write_ok env st params bls block sdb rcpts pt hnum hpar hmat
            hmiss hv hp hw]

/-- Coordinator state holding a stale cache entry under a key no candidate
materializes to. -/
def exStStale : ChainState :=
  { head := exGenesis, verified := [(55, ⟨exGenesis, 0, 0, 0⟩)] }

/-- Counterexample to C1 as stated: NewL2Block commits exD1 successfully
through the cache-miss path, yet the post-state cache still holds the stale
entry — it is not emptied after every successful commit. -/
theorem newL2Block_commit_cache_cex :
    (NewL2Block exEnv exStStale exD1 0).1 = none ∧
    (NewL2Block exEnv exStStale exD1 0).2.verified ≠ [] := by decide

/-- Coordinator state whose cache already holds the execution result of the
block exD1 materializes to (content hash 1). -/
def exStHit : ChainState :=
  { head := exGenesis, verified := [(1, ⟨exBlk1, 7, 8, 9⟩)] }

/-- Witness for C1 (amended): a concrete hit-path commit empties the cache
and advances the head. -/
theorem newL2Block_commit_cache_witness :
    NewL2Block exEnv exStHit exD1 0 =
      (none, { exStHit with head := exBlk1, verified := [], writeCalls := 1 }) :=
  (newL2Block_commit_cache exEnv exStHit exD1 0 exBlk1 rfl rfl rfl).1
    ⟨exBlk1, 7, 8, 9⟩ rfl rfl

/-- Claim C3 (amended): a descriptor whose materialized content hash
is already cached validates to true immediately with the whole state
unchanged (so neither the executor nor the engine verification nor the body
validator is invoked); and whenever a validation returns valid=true, an
immediately repeated validation of the same descriptor returns valid=true
with the state again unchanged — no second execution. -/
theorem validate_idempotent (env : Env) (st : ChainState)
    (params : ExecutableL2Data) :
    (∀ block, params.number = st.head.header.number + 1 →
      params.parentHash = env.hashHeader st.head.header →
      paramsToBlock env params 0 = Except.ok block →
      (cacheLookup st.verified (env.hashHeader block.header)).isSome →
      ValidateL2Block env st params = (Except.ok ⟨true⟩, st)) ∧
    (∀ st1, ValidateL2Block env st params = (Except.ok ⟨true⟩, st1) →
      ValidateL2Block env st1 params = (Except.ok ⟨true⟩, st1)) := by
  constructor
  · intro block hnum hpar hmat hhit
    exact ValidateL2Block_cache_hit env st params block hnum hpar hmat hhit
  · intro st1 h1
    obtain ⟨hnum, hpar, hhead, blk, hmat, hhit⟩ :=
      ValidateL2Block_true_inv env st params st1 h1
    exact ValidateL2Block_cache_hit env st1 params blk
      (by rw [hhead]; exact hnum) (by rw [hhead]; exact hpar) hmat hhit

/-- Counterexample to C3 as stated: with a failing executor, validating the
same descriptor twice with no intervening commit invokes the executor twice
(nothing is cached on failure), refuting "re-executes at most once". -/
theorem validate_idempotent_cex :
    (ValidateL2Block exEnv5 (ValidateL2Block exEnv5 exSt0 exD1).2 exD1).2.procCalls = 2 ∧
    exSt0.procCalls = 0 := by decide

/-- Witness for C3 (amended): a concrete already-cached descriptor validates
to true with the state untouched. -/
theorem validate_idempotent_witness :
    ValidateL2Block exEnv exStHit exD1 = (Except.ok ⟨true⟩, exStHit) :=
  (validate_idempotent exEnv exStHit exD1).1 exBlk1 rfl rfl rfl (by decide)

/-- When the transactions decode, paramsToBlock succeeds and the body is the
decoded list. -/
theorem paramsToBlock_ok_of_decode (env : Env) (params : ExecutableL2Data)
    (bls : BLSData) (txs : List Tx)
    (hd : decodeTransactions env params.transactions = Except.ok txs) :
    ∃ blk, paramsToBlock env params bls = Except.ok blk ∧ blk.txs = txs := by
  unfold paramsToBlock
  rw [hd]
  exact ⟨_, rfl, rfl⟩

/-- When the engine prepare hook preserves the extra bytes, the materialized
header carries exactly the extra bytes of the descriptor. -/
theorem paramsToBlock_extra (env : Env) (params : ExecutableL2Data)
    (bls : BLSData) (blk : Block)
    (hprep : ∀ h, (env.prepare h).extra = h.extra)
    (hmat : paramsToBlock env params bls = Except.ok blk) :
    blk.header.extra = params.extra := by
  unfold paramsToBlock at hmat
  cases hd : decodeTransactions env params.transactions with
  | error e => rw [hd] at hmat; simp at hmat
  | ok txs =>
    rw [hd] at hmat
    simp only [Except.ok.injEq] at hmat
    rw [← hmat]
    simp [hprep]

/-- Claim C2 (amended): after a successful AssembleL2Block producing
descriptor D, if materializing D with the supplied aggregate-signature data
reproduces the assembled block exactly (which requires in particular that
the assembled header carry empty extra bytes and BLS data equal to the
supplied aggregate data, since D leaves extra unset), then NewL2Block with
D takes the cache-hit path: ProcessBlock is never invoked (all counters
except writeCalls are unchanged), exactly one store write happens, the
commit succeeds, and the head advances to the assembled block. -/
theorem assemble_then_commit_cache_hit (env : Env) (st : ChainState)
    (params : AssembleL2BlockParams) (txs : List Tx) (ablock : Block)
    (sdb : StateDB) (rcpts : Receipts) (bls : BLSData)
    (hnum : params.number = st.head.header.number + 1)
    (hdec : decodeTxsLoop env 0 params.transactions = Except.ok txs)
    (hseal : env.getSealing (env.hashHeader st.head.header) txs =
      Except.ok (ablock, sdb, rcpts))
    (hne : ablock.header.txHash ≠ env.emptyRootHash)
    (hanum : ablock.header.number = st.head.header.number + 1)
    (hapar : ablock.header.parentHash = env.hashHeader st.head.header)
    (hmat : paramsToBlock env (toExecutableL2Data env ablock) bls = Except.ok ablock)
    (hw : env.writeResult ablock rcpts sdb env.elapsed = none) :
    AssembleL2Block env st params =
      (Except.ok (some (toExecutableL2Data env ablock)),
       { st with
           verified := cacheInsert st.verified (env.hashHeader ablock.header)
             ⟨ablock, sdb, rcpts, env.elapsed⟩ }) ∧
    NewL2Block env
      { st with
          verified := cacheInsert st.verified (env.hashHeader ablock.header)
            ⟨ablock, sdb, rcpts, env.elapsed⟩ }
      (toExecutableL2Data env ablock) bls =
      (none,
       { st with head := ablock, verified := [], writeCalls := st.writeCalls + 1 }) := by
  refine ⟨AssembleL2Block_success env st params txs ablock sdb rcpts hnum hdec hseal hne, ?_⟩
  exact NewL2Block_hit_write_ok env
    { st with
        verified := cacheInsert st.verified (env.hashHeader ablock.header)
          ⟨ablock, sdb, rcpts, env.elapsed⟩ }
    (toExecutableL2Data env ablock) bls ablock ⟨ablock, sdb, rcpts, env.elapsed⟩
    hanum hapar hmat (cacheLookup_cacheInsert_self _ _ _) hw

/-- A miner block with NONEMPTY extra bytes (and a transaction). -/
def exAsm2 : Block := ⟨{ exHeader with number := 1, extra := [7], txHash := 5 }, [3]⟩

/-- Environment whose content hash is determined by (and faithful to) the
extra bytes of the header, and whose miner produces exAsm2. -/
def exEnv2 : Env :=
  { exEnv with
      hashHeader := fun h => natListEncode h.extra
      getSealing := fun _ _ => Except.ok (exAsm2, 0, 0) }

/-- Counterexample to C2 as stated: Assemble succeeds and returns descriptor
D, and NewL2Block with the identical D and matching (zero) BLS data
succeeds — but through the re-execution path, invoking ProcessBlock once:
D omits the nonempty extra bytes of the assembled header, so the materialized
hash misses the cache. -/
theorem assemble_then_commit_cache_hit_cex :
    (AssembleL2Block exEnv2 exSt0 ⟨1, [[3]]⟩).1 =
      Except.ok (some (toExecutableL2Data exEnv2 exAsm2)) ∧
    (NewL2Block exEnv2 (AssembleL2Block exEnv2 exSt0 ⟨1, [[3]]⟩).2
        (toExecutableL2Data exEnv2 exAsm2) 0).1 = none ∧
    (NewL2Block exEnv2 (AssembleL2Block exEnv2 exSt0 ⟨1, [[3]]⟩).2
        (toExecutableL2Data exEnv2 exAsm2) 0).2.procCalls = 1 :=
  ⟨rfl, rfl, rfl⟩

/-- A miner block whose descriptor round-trips exactly (empty extra, zero
BLS data, transaction root consistent with the codec and trie). -/
def exAsm2w : Block := ⟨{ exHeader with number := 1, txHash := 101 }, [3]⟩

/-- Environment under which exAsm2w rematerializes exactly: content hash =
transaction root, trie root = length + 100, codec `[t] ↔ t`. -/
def exEnv2w : Env :=
  { exEnv with
      hashHeader := fun h => h.txHash
      deriveSha := fun l => l.length + 100
      getSealing := fun _ _ => Except.ok (exAsm2w, 4, 6) }

/-- Witness for C2 (amended): a concrete assemble-then-commit run that hits
the cache, writes once, never executes, and advances the head. -/
theorem assemble_then_commit_cache_hit_witness :
    NewL2Block exEnv2w
      { exSt0 with verified := cacheInsert exSt0.verified 101 ⟨exAsm2w, 4, 6, 0⟩ }
      (toExecutableL2Data exEnv2w exAsm2w) 0 =
      (none, { exSt0 with head := exAsm2w, verified := [], writeCalls := 1 }) :=
  (assemble_then_commit_cache_hit exEnv2w exSt0 ⟨1, [[3]]⟩ [3] exAsm2w 4 6 0
    rfl rfl rfl (by decide) rfl rfl rfl rfl).2

/-- Claim C10: every successful AssembleL2Block call returns a descriptor
whose extra-bytes field is unset (empty), whatever extra data the assembled
header carries; consequently, whenever the extra bytes of the assembled header
are nonempty — provided the engine prepare hook preserves extra bytes, the
transaction codec round-trips, and the content hash is faithful to the
extra bytes — rematerializing the descriptor via paramsToBlock produces a
block whose content hash differs from the hash of the cached block. -/
theorem assemble_descriptor_extra_unset (env : Env) (st : ChainState)
    (params : AssembleL2BlockParams) (txs : List Tx) (ablock : Block)
    (sdb : StateDB) (rcpts : Receipts) (bls : BLSData)
    (hnum : params.number = st.head.header.number + 1)
    (hdec : decodeTxsLoop env 0 params.transactions = Except.ok txs)
    (hseal : env.getSealing (env.hashHeader st.head.header) txs =
      Except.ok (ablock, sdb, rcpts))
    (hne : ablock.header.txHash ≠ env.emptyRootHash) :
    (toExecutableL2Data env ablock).extra = [] ∧
    (AssembleL2Block env st params).1 =
      Except.ok (some (toExecutableL2Data env ablock)) ∧
    (ablock.header.extra ≠ [] →
      (∀ h, (env.prepare h).extra = h.extra) →
      (∀ tx, env.decodeTx (env.encodeTx tx) = Except.ok tx) →
      (∀ h1 h2, env.hashHeader h1 = env.hashHeader h2 → h1.extra = h2.extra) →
      ∃ blk, paramsToBlock env (toExecutableL2Data env ablock) bls = Except.ok blk ∧
        env.hashHeader blk.header ≠ env.hashHeader ablock.header) := by
  refine ⟨rfl, ?_, ?_⟩
  · rw [AssembleL2Block_success env st params txs ablock sdb rcpts hnum hdec hseal hne]
  · intro hextra hprep hrt hres
    have hdecD : decodeTransactions env (toExecutableL2Data env ablock).transactions =
        Except.ok ablock.txs :=
      decodeTxsLoop_map_encode env hrt 0 ablock.txs
    obtain ⟨blk, hmatD, -⟩ :=
      paramsToBlock_ok_of_decode env (toExecutableL2Data env ablock) bls ablock.txs hdecD
    refine ⟨blk, hmatD, ?_⟩
    intro hhash
    have hext := hres blk.header ablock.header hhash
    have hblkextra : blk.header.extra = (toExecutableL2Data env ablock).extra :=
      paramsToBlock_extra env (toExecutableL2Data env ablock) bls blk hprep hmatD
    rw [hblkextra] at hext
    exact hextra hext.symm

/-- Witness for C10 at a concrete run: the descriptor of exAsm2 (extra [7])
has empty extra, and its rematerialization hashes differently from the
cached block. -/
theorem assemble_descriptor_extra_unset_witness :
    (toExecutableL2Data exEnv2 exAsm2).extra = [] ∧
    exEnv2.hashHeader (Block.mk { exHeader with number := 1 } [3]).header ≠
      exEnv2.hashHeader exAsm2.header := by
  have h := assemble_descriptor_extra_unset exEnv2 exSt0 ⟨1, [[3]]⟩ [3] exAsm2 0 0 0
    rfl rfl rfl (by decide)
  obtain ⟨blk, hmat, hne2⟩ := h.2.2 (by decide) (fun hh => rfl) (fun tx => rfl)
    (fun h1 h2 he => natListEncode_inj _ _ he)
  have hcomp : paramsToBlock exEnv2 (toExecutableL2Data exEnv2 exAsm2) 0 =
      Except.ok (Block.mk { exHeader with number := 1 } [3]) := rfl
  rw [hcomp] at hmat
  have hb := Except.ok.inj hmat
  rw [← hb] at hne2
  exact ⟨h.1, hne2⟩

end Catalyst
